import Mathlib

/-!
Verification development for the `raven` WPS wrapper.

The repository wraps an external hydrological library (`ravenpy`) behind
pywps process endpoints.  We shallowly embed the wrapper's handlers:
Python dicts become association lists with distinct keys kept in insertion
order, the external library becomes an explicit oracle record whose calls
may fail (`Except`), and a handler invocation returns a record of its
visible effects (outcome, status updates, log entries, file writes, and a
trace of library calls made).
-/

set_option maxRecDepth 4000

namespace RavenWPS

/-- One occurrence of a request input in pywps: it carries parsed `data`
and a resolved `file` path. -/
structure InputVal (V : Type) where
  data : V
  file : String
deriving DecidableEq, Repr

/-- `request.inputs` in pywps: a dict from input identifier to the list of
occurrences of that input.  Python dicts keep insertion order and have
distinct keys; we model them as association lists. -/
abbrev Inputs (V : Type) := List (String × List (InputVal V))

/-- Python `d.get(k)` on a dict modelled as an association list. -/
def dictGetVal {α : Type} (d : List (String × α)) (k : String) : Option α :=
  (d.find? (fun p => p.1 == k)).map (fun p => p.2)

/-- Python `k in d` on a dict. -/
def dictHasKey {α : Type} (d : List (String × α)) (k : String) : Bool :=
  d.any (fun p => p.1 == k)

/-- Python `d.pop(k)` (with the popped value as an `Option`): removes the
key and leaves the other entries in order. -/
def dictPop {α : Type} (d : List (String × α)) (k : String) :
    Option α × List (String × α) :=
  (dictGetVal d k, d.filter (fun p => p.1 != k))

/-- Python `d[k] = v` on a dict: overwrite in place when the key exists
(a dict holds each key at most once), otherwise append the entry at the
end — Python dicts append new keys in insertion order. -/
def dictSet {α : Type} : List (String × α) → String → α → List (String × α)
  | [], k, v => [(k, v)]
  | p :: rest, k, v =>
      if p.1 == k then (k, v) :: rest else p :: dictSet rest k v

/-- Python `d.update(e)`: set every entry of `e` into `d`, in order. -/
def dictUpdate {α : Type} (d e : List (String × α)) : List (String × α) :=
  e.foldl (fun acc p => dictSet acc p.1 p.2) d

/-! ### Python character classes and the pywps error-message formatting

`wps_regionalisation.py` raises
`ProcessError(err_msg, max_length=len(err_msg), allowed_chars=string.printable)`.
The next definitions model the pieces of that call: Python's
`string.printable` constant and the message formatting that pywps's
`ProcessError` applies before surfacing the message to the caller. -/

/-- Python `string.printable`: digits, ASCII letters, punctuation
(together the ASCII range 33–126), the space character 32, and the
whitespace characters TAB, LF, VT, FF, CR. -/
def isPythonPrintable (c : Char) : Bool :=
  (32 ≤ c.toNat && c.toNat ≤ 126) ||
    (c.toNat == 9 || c.toNat == 10 || c.toNat == 11 ||
      c.toNat == 12 || c.toNat == 13)

/-- Python whitespace as used by `str.split()` and `str.strip()`
(restricted to ASCII): space, TAB, LF, VT, FF, CR. -/
def isPyWhitespace (c : Char) : Bool :=
  c.toNat == 32 || c.toNat == 9 || c.toNat == 10 ||
    c.toNat == 11 || c.toNat == 12 || c.toNat == 13

/-- Python `text.split()`: the maximal runs of non-whitespace characters. -/
def pySplitAux : List Char → List Char → List (List Char)
  | [], acc => if acc.isEmpty then [] else [acc.reverse]
  | c :: rest, acc =>
      if isPyWhitespace c then
        if acc.isEmpty then pySplitAux rest []
        else acc.reverse :: pySplitAux rest []
      else pySplitAux rest (c :: acc)

def pySplit (l : List Char) : List (List Char) := pySplitAux l []

/-- Python `" ".join(words)`. -/
def joinWithSpace : List (List Char) → List Char
  | [] => []
  | [w] => w
  | w :: ws => w ++ ' ' :: joinWithSpace ws

/-- Modelled from the spec: pywps's `ProcessError` message formatting
(part of the external pywps framework, not of this repository; the call
site's comment documents that by default the message "is limited to 300
chars and strips many special characters").  Characters that are neither
alphanumeric, nor in `allowed`, nor whitespace are removed; whitespace is
normalised (strip plus single-space join of `split()`); a message longer
than `maxLength` is cut to `maxLength` characters with `"..."` appended;
a message shorter than `minLength` (default 3) is rejected (`none`, the
framework then falls back to a generic default message). -/
def truncAndCheck (collapsed : List Char) (minLength maxLength : Nat) :
    Option (List Char) :=
  if maxLength < collapsed.length then
    if (collapsed.take maxLength ++ ['.', '.', '.']).length < minLength
    then none else some (collapsed.take maxLength ++ ['.', '.', '.'])
  else
    if collapsed.length < minLength then none else some collapsed

def formatMessage (text : List Char) (minLength maxLength : Nat)
    (allowed : Char → Bool) : Option (List Char) :=
  truncAndCheck
    (joinWithSpace (pySplit (text.filter
      (fun c => c.isAlphanum || allowed c || isPyWhitespace c))))
    minLength maxLength

/-- The message a `ProcessError` raised with message `msg`, the given
`max_length` and `allowed_chars = string.printable` surfaces to the
caller (pywps's default `min_length` is 3). -/
def surfacedMessage (msg : String) (maxLength : Nat) : Option (List Char) :=
  formatMessage msg.toList 3 maxLength isPythonPrintable

/-! ### The regionalisation handler (`RegionalisationProcess._handler`)

The handler pops `ts`, `model_name`, `method`, `ndonors`, `min_NSE`,
`properties` and `nc_spec` from `request.inputs`, merges the JSON-decoded
`nc_spec` occurrences and the first occurrence of every remaining input
into a keyword dict, calls `read_gauged_params`, `read_gauged_properties`
and — inside the only `try` block — `regionalize`, and on success writes
`qsim.nc` and `ensemble.nc` into the working directory.

`V` is the type of input `data` payloads, `Props` the opaque return type
of `read_gauged_properties`, `Sim` the opaque type of the two datasets
returned by `regionalize`, `E` the type of exceptions the library can
raise.  `json.loads` is an oracle `V → List (String × V)` returning a
Python dict (so with pairwise-distinct keys on any real input). -/

/-- The arguments of the single `regionalize(...)` call in the handler,
positionally `method, model_name, nash, params, props, ungauged_props`,
then the keywords `size`, `min_NSE`, `ts` and the splatted `**kwds`. -/
structure RegionalizeArgs (V Props : Type) where
  method : V
  model_name : V
  nash : V
  params : V
  props : Props
  ungauged_props : List (String × V)
  size : V
  min_NSE : V
  ts : List String
  kwds : List (String × V)
deriving DecidableEq, Repr

/-- A record of one call the handler makes into the `ravenpy` library. -/
inductive LibraryCall (V Props : Type) where
  | readGaugedParams (model_name : V)
  | readGaugedProperties (keys : List String)
  | regionalizeCall (args : RegionalizeArgs V Props)
deriving DecidableEq, Repr

/-- The oracle for the external `ravenpy` library: each call either
returns a value or raises an exception (`Except.error`).  `format_exc`
models `traceback.format_exc()` for the in-flight exception. -/
structure RavenLib (V Props Sim E : Type) where
  read_gauged_params : V → Except E (V × V)
  read_gauged_properties : List String → Except E Props
  regionalize : RegionalizeArgs V Props → Except E (Sim × Sim)
  format_exc : E → String

/-- How a handler invocation terminates, as seen by the caller. -/
inductive Outcome (E : Type) where
  /-- Normal return of the response. -/
  | ok
  /-- A `ProcessError(msg, max_length=maxLength,
  allowed_chars=string.printable)` raised by the handler's `except`
  block. -/
  | processError (msg : String) (maxLength : Nat)
  /-- An exception that propagates out of the handler uncaught. -/
  | uncaught (e : E)
  /-- A Python-level error in the handler itself (`KeyError` from `pop`,
  `IndexError` from `[0]` on an empty occurrence list). -/
  | pyError
deriving DecidableEq, Repr

def Outcome.isProcessError {E : Type} : Outcome E → Bool
  | .processError _ _ => true
  | _ => false

/-- The visible effects of one invocation of the regionalisation
handler: the termination outcome, the `response.update_status` calls
made, the two response outputs, the files written to the working
directory, the exceptions passed to `LOGGER.exception`, and the trace of
library calls in order. -/
structure RunResult (V Props Sim E : Type) where
  outcome : Outcome E
  statusUpdates : List (String × Nat)
  hydrograph : Option String
  ensemble : Option String
  files : List (String × Sim)
  log : List E
  trace : List (LibraryCall V Props)
deriving DecidableEq, Repr

/-- The regionalize calls inside a trace, with their arguments. -/
def regionalizeCallsOf {V Props : Type} (t : List (LibraryCall V Props)) :
    List (RegionalizeArgs V Props) :=
  t.filterMap (fun c => match c with
    | .regionalizeCall a => some a
    | _ => none)

/-- The popped scalar inputs of a regionalisation request together with
the dict of inputs left after the seven `pop` calls. -/
structure ParsedRequest (V : Type) where
  ts : List String
  model_name : V
  method : V
  ndonors : V
  min_NSE : V
  propertiesRaw : V
  ncSpec : List V
  rest : List (String × List (InputVal V))
deriving DecidableEq, Repr

/-- The seven `request.inputs.pop(...)` lines at the top of the handler:
`ts = [e.file for e in request.inputs.pop("ts")]`, then
`model_name`, `method`, `ndonors`, `min_NSE`, `properties` each as
`request.inputs.pop(key)[0].data` (so `none` — a Python `KeyError` or
`IndexError` — when the key is missing or has no occurrence), and
`request.inputs.pop("nc_spec", [])` with its empty-list default. -/
def parseRegionRequest {V : Type} (inputs : Inputs V) :
    Option (ParsedRequest V) :=
  match dictPop inputs "ts" with
  | (none, _) => none
  | (some tsOccs, i1) =>
  match dictPop i1 "model_name" with
  | (some (mn :: _), i2) =>
    match dictPop i2 "method" with
    | (some (me :: _), i3) =>
      match dictPop i3 "ndonors" with
      | (some (nd :: _), i4) =>
        match dictPop i4 "min_NSE" with
        | (some (mn2 :: _), i5) =>
          match dictPop i5 "properties" with
          | (some (pr :: _), i6) =>
            match dictPop i6 "nc_spec" with
            | (ncOpt, i7) =>
              some { ts := tsOccs.map (fun e => e.file)
                     model_name := mn.data
                     method := me.data
                     ndonors := nd.data
                     min_NSE := mn2.data
                     propertiesRaw := pr.data
                     ncSpec := (ncOpt.getD []).map (fun e => e.data)
                     rest := i7 }
          | _ => none
        | _ => none
      | _ => none
    | _ => none
  | _ => none

/-- The keyword dict the handler builds: `kwds = {}`, then
`kwds.update(json.loads(spec.data))` for each `nc_spec` occurrence in
order, then `kwds[key] = request.inputs[key][0].data` for every remaining
input in dict order (`none` models the `IndexError` when a remaining
occurrence list is empty). -/
def setStep {V : Type} (acc : Option (List (String × V)))
    (entry : String × List (InputVal V)) : Option (List (String × V)) :=
  acc.bind (fun m =>
    match entry.2 with
    | [] => none
    | v :: _ => some (dictSet m entry.1 v.data))

def setFromRemaining {V : Type}
    (rest : List (String × List (InputVal V)))
    (d : List (String × V)) : Option (List (String × V)) :=
  rest.foldl setStep (some d)

def buildKwds {V : Type} (jsonLoads : V → List (String × V))
    (p : ParsedRequest V) : Option (List (String × V)) :=
  setFromRemaining p.rest
    (p.ncSpec.foldl (fun acc s => dictUpdate acc (jsonLoads s)) [])

/-- The dict comprehension
`ungauged_props = {key: properties[key] for key in properties}`:
iterate over the keys of the decoded dict in order and look each key up
(the `getD` branch is unreachable: every key of a dict is found by
`find?`). -/
def ungaugedPropsOf {V : Type} (d : List (String × V)) :
    List (String × V) :=
  d.map (fun p =>
    (p.1, ((d.find? (fun q => q.1 == p.1)).map (fun q => q.2)).getD p.2))

/-- The arguments the handler hands to `regionalize`: the popped inputs,
the values the two read calls returned, the rebuilt
`ungauged_props` dict, and the keyword dict, exactly as at the call
site. -/
def regionArgsOf {V Props : Type} (jsonLoads : V → List (String × V))
    (p : ParsedRequest V) (nash params : V) (props : Props)
    (kwds : List (String × V)) : RegionalizeArgs V Props :=
  { method := p.method, model_name := p.model_name, nash := nash,
    params := params, props := props,
    ungauged_props := ungaugedPropsOf (jsonLoads p.propertiesRaw),
    size := p.ndonors, min_NSE := p.min_NSE, ts := p.ts, kwds := kwds }

/-- The result of an invocation that dies with a Python-level error
before any status update, library call or write. -/
def pyErrorRun (V Props Sim E : Type) : RunResult V Props Sim E :=
  { outcome := .pyError, statusUpdates := [], hydrograph := none,
    ensemble := none, files := [], log := [], trace := [] }

/-- The body of the handler from `response.update_status("Inputs are
read", 1)` on, given the parsed inputs and the keyword dict.  Only the
`regionalize` call sits inside a `try`: its exceptions are logged
(`LOGGER.exception`) and re-raised as
`ProcessError(err_msg, max_length=len(err_msg),
allowed_chars=string.printable)` with `err_msg = traceback.format_exc()`;
exceptions of `read_gauged_params` and `read_gauged_properties` propagate
uncaught.  On success `qsim.to_netcdf(workdir/"qsim.nc")` and
`ensemble.to_netcdf(workdir/"ensemble.nc")` run and the two response
outputs are set to those paths. -/
def runParsed {V Props Sim E : Type} (lib : RavenLib V Props Sim E)
    (jsonLoads : V → List (String × V)) (workdir : String)
    (p : ParsedRequest V) : RunResult V Props Sim E :=
  match buildKwds jsonLoads p with
  | none => pyErrorRun V Props Sim E
  | some kwds =>
    let st1 := [("Inputs are read", 1)]
    match lib.read_gauged_params p.model_name with
    | .error e =>
        { outcome := .uncaught e, statusUpdates := st1,
          hydrograph := none, ensemble := none, files := [], log := [],
          trace := [.readGaugedParams p.model_name] }
    | .ok (nash, params) =>
      let st2 := st1 ++ [("Gauged params are read", 2)]
      let propsDict := jsonLoads p.propertiesRaw
      let keys := propsDict.map (fun q => q.1)
      match lib.read_gauged_properties keys with
      | .error e =>
          { outcome := .uncaught e, statusUpdates := st2,
            hydrograph := none, ensemble := none, files := [], log := [],
            trace := [.readGaugedParams p.model_name,
                      .readGaugedProperties keys] }
      | .ok props =>
        let st3 := st2 ++ [("Gauged properties are read", 3)]
        let args := regionArgsOf jsonLoads p nash params props kwds
        let tr := [LibraryCall.readGaugedParams p.model_name,
                   .readGaugedProperties keys, .regionalizeCall args]
        match lib.regionalize args with
        | .error e =>
            { outcome := .processError (lib.format_exc e)
                (lib.format_exc e).length,
              statusUpdates := st3, hydrograph := none, ensemble := none,
              files := [], log := [e], trace := tr }
        | .ok (qsim, ens) =>
            let nc_qsim := workdir ++ "/qsim.nc"
            let nc_ensemble := workdir ++ "/ensemble.nc"
            { outcome := .ok,
              statusUpdates := st3 ++ [("Computed regionalization", 99)],
              hydrograph := some nc_qsim, ensemble := some nc_ensemble,
              files := [(nc_qsim, qsim), (nc_ensemble, ens)], log := [],
              trace := tr }

/-- One invocation of `RegionalisationProcess._handler`. -/
def regionHandler {V Props Sim E : Type} (lib : RavenLib V Props Sim E)
    (jsonLoads : V → List (String × V)) (workdir : String)
    (inputs : Inputs V) : RunResult V Props Sim E :=
  match parseRegionRequest inputs with
  | none => pyErrorRun V Props Sim E
  | some p => runParsed lib jsonLoads workdir p

/-! ### The forecast-uncertainty graph handler
(`GraphFcstUncertaintyProcess._handler`)

The handler reads `fcst` and `fcst_var`, calls
`hindcast(sim_fn, fcst_var, qobs_fn, qobs_var)` when `'qobs' in
request.inputs` and `forecast(sim_fn, fcst_var)` otherwise, saves the
figure as `forecast_hydrographs.png` in the working directory, closes it,
and sets the `graph_forecasts` output to that path. -/

/-- The oracle for the two plotting helpers of
`raven.utilities.graphs`; `Fig` is the opaque matplotlib figure type. -/
structure GraphLib (V Fig : Type) where
  hindcast : String → V → String → V → Fig
  forecast : String → V → Fig

/-- Which plotting helper the handler called, with its arguments. -/
inductive FigCall (V : Type) where
  | hindcastCall (sim_fn : String) (fcst_var : V) (qobs_fn : String)
      (qobs_var : V)
  | forecastCall (sim_fn : String) (fcst_var : V)
deriving DecidableEq, Repr

/-- The visible effects of one invocation of the graph handler. -/
structure GraphResult (V Fig : Type) where
  ok : Bool
  call : Option (FigCall V)
  files : List (String × Fig)
  closedFigs : List Fig
  graph_forecasts : Option String
deriving DecidableEq, Repr

/-- The invocation that dies with a Python `KeyError`/`IndexError`. -/
def graphPyErrorRun (V Fig : Type) : GraphResult V Fig :=
  { ok := false, call := none, files := [], closedFigs := [],
    graph_forecasts := none }

/-- One invocation of `GraphFcstUncertaintyProcess._handler`. -/
def graphHandler {V Fig : Type} (lib : GraphLib V Fig) (workdir : String)
    (inputs : Inputs V) : GraphResult V Fig :=
  match dictGetVal inputs "fcst" with
  | none => graphPyErrorRun V Fig
  | some [] => graphPyErrorRun V Fig
  | some (fcst0 :: _) =>
    let sim_fn := fcst0.file
    match dictGetVal inputs "fcst_var" with
    | none => graphPyErrorRun V Fig
    | some [] => graphPyErrorRun V Fig
    | some (fv0 :: _) =>
      let fcst_var := fv0.data
      let figCall : Option (FigCall V) :=
        if dictHasKey inputs "qobs" then
          match dictGetVal inputs "qobs" with
          | some (q0 :: _) =>
            match dictGetVal inputs "qobs_var" with
            | some (qv0 :: _) =>
                some (.hindcastCall sim_fn fcst_var q0.file qv0.data)
            | _ => none
          | _ => none
        else some (.forecastCall sim_fn fcst_var)
      match figCall with
      | none => graphPyErrorRun V Fig
      | some c =>
        let fig := match c with
          | .hindcastCall s v q qv => lib.hindcast s v q qv
          | .forecastCall s v => lib.forecast s v
        let fig_fn_fcst := workdir ++ "/forecast_hydrographs.png"
        { ok := true, call := some c, files := [(fig_fn_fcst, fig)],
          closedFigs := [fig], graph_forecasts := some fig_fn_fcst }

/-! ### Declared input schemas

`PyLit` carries the typed default values of `LiteralInput` declarations
(Python floats are written as the exact rationals their source literals
denote). -/

inductive PyLit where
  | s (v : String)
  | i (v : Int)
  | f (v : ℚ)
deriving DecidableEq, Repr

/-- A pywps `LiteralInput` declaration.  pywps's constructor defaults are
`min_occurs=1, max_occurs=1`; fields not modelled (title, abstract) are
omitted except where a claim needs them. -/
structure LiteralInputSpec where
  identifier : String
  data_type : String
  allowed_values : Option (List String)
  defaultVal : Option PyLit
  min_occurs : Nat
  max_occurs : Nat
deriving DecidableEq, Repr

/-- A pywps `ComplexInput` declaration (mime types of the supported
formats). -/
structure ComplexInputSpec where
  identifier : String
  min_occurs : Nat
  max_occurs : Nat
  supported_formats : List String
deriving DecidableEq, Repr

/-- `RegionalisationProcess.method` (`wps_regionalisation.py`). -/
def region_method_input : LiteralInputSpec :=
  { identifier := "method", data_type := "string",
    allowed_values := some ["MLR", "SP", "PS", "SP_IDW", "PS_IDW",
      "SP_IDW_RA", "PS_IDW_RA"],
    defaultVal := some (.s "SP_IDW"), min_occurs := 0, max_occurs := 1 }

/-- `RegionalisationProcess.ndonors`. -/
def region_ndonors_input : LiteralInputSpec :=
  { identifier := "ndonors", data_type := "integer",
    allowed_values := none, defaultVal := some (.i 5),
    min_occurs := 0, max_occurs := 1 }

/-- `RegionalisationProcess.min_NSE`. -/
def region_min_NSE_input : LiteralInputSpec :=
  { identifier := "min_NSE", data_type := "float",
    allowed_values := none, defaultVal := some (.f (6 / 10)),
    min_occurs := 0, max_occurs := 1 }

/-- `RegionalisationProcess.properties`: a `ComplexInput` with
`min_occurs=1, max_occurs=1` and `FORMATS.JSON` (mime
`application/json`) as its only supported format. -/
def region_properties_input : ComplexInputSpec :=
  { identifier := "properties", min_occurs := 1, max_occurs := 1,
    supported_formats := ["application/json"] }

/-! ### The HBV-EC process descriptor (`wps_raven_hbv_ec.py`)

`HBVEC.Params` is a dataclass of the external `ravenpy` library with the
21 fields `par_x01` … `par_x21` in declaration order; `params_defaults`
instantiates it with the float literals of the source, and the `params`
input renders `", ".join(map(str, astuple(params_defaults)))` as its
default and `"Parameters: " + ", ".join(f.name for f in fields(...))` as
its abstract.  We carry each parameter as the string `str()` produces for
it (these short literals are their own shortest float repr). -/

structure HBVECParams where
  par_x01 : String
  par_x02 : String
  par_x03 : String
  par_x04 : String
  par_x05 : String
  par_x06 : String
  par_x07 : String
  par_x08 : String
  par_x09 : String
  par_x10 : String
  par_x11 : String
  par_x12 : String
  par_x13 : String
  par_x14 : String
  par_x15 : String
  par_x16 : String
  par_x17 : String
  par_x18 : String
  par_x19 : String
  par_x20 : String
  par_x21 : String
deriving DecidableEq, Repr

/-- The `params_defaults = HBVEC.Params(...)` literal of
`wps_raven_hbv_ec.py`. -/
def params_defaults : HBVECParams :=
  { par_x01 := "0.05984519", par_x02 := "4.072232",
    par_x03 := "2.001574", par_x04 := "0.03473693",
    par_x05 := "0.09985144", par_x06 := "0.506052",
    par_x07 := "3.438486", par_x08 := "38.32455",
    par_x09 := "0.4606565", par_x10 := "0.06303738",
    par_x11 := "2.277781", par_x12 := "4.873686",
    par_x13 := "0.5718813", par_x14 := "0.04505643",
    par_x15 := "0.877607", par_x16 := "18.94145",
    par_x17 := "2.036937", par_x18 := "0.4452843",
    par_x19 := "0.6771759", par_x20 := "1.141608",
    par_x21 := "1.024278" }

/-- `dataclasses.astuple`: the field values in declaration order. -/
def astupleHBVEC (p : HBVECParams) : List String :=
  [p.par_x01, p.par_x02, p.par_x03, p.par_x04, p.par_x05, p.par_x06,
   p.par_x07, p.par_x08, p.par_x09, p.par_x10, p.par_x11, p.par_x12,
   p.par_x13, p.par_x14, p.par_x15, p.par_x16, p.par_x17, p.par_x18,
   p.par_x19, p.par_x20, p.par_x21]

/-- `dataclasses.fields`: the field names in declaration order. -/
def fieldNamesHBVEC : List String :=
  ["par_x01", "par_x02", "par_x03", "par_x04", "par_x05", "par_x06",
   "par_x07", "par_x08", "par_x09", "par_x10", "par_x11", "par_x12",
   "par_x13", "par_x14", "par_x15", "par_x16", "par_x17", "par_x18",
   "par_x19", "par_x20", "par_x21"]

/-- The abstract of the HBV-EC `params` input:
`"Parameters: " + ", ".join(f.name for f in fields(params_defaults))`. -/
def hbvec_params_abstract : String :=
  "Parameters: " ++ String.intercalate ", " fieldNamesHBVEC

/-- The `params` `LiteralInput` of `wps_raven_hbv_ec.py` (its
`max_occurs` is `config.max_parallel_processes`, a deployment constant we
leave as a parameter). -/
def hbvec_params_input (maxParallel : Nat) : LiteralInputSpec :=
  { identifier := "params", data_type := "string",
    allowed_values := none,
    defaultVal := some (.s (String.intercalate ", "
      (astupleHBVEC params_defaults))),
    min_occurs := 0, max_occurs := maxParallel }

/-! ### A concrete instantiation

For witnesses and counterexamples we instantiate the payload type `V`,
the opaque property/dataset types and the exception type with `String`
(resp. `List String`), give `json.loads` a small concrete decoding table,
and fix a request carrying every regionalisation input plus one extra
input (`latitude`, with two occurrences). -/

/-- A concrete `json.loads`: the `properties` payload `"PJ"` decodes to a
two-key dict, the `nc_spec` payload `"NJ"` to a dict sharing the
`latitude` key with a remaining input. -/
def jsonW (s : String) : List (String × String) :=
  if s = "PJ" then [("area", "100"), ("latitude", "45")]
  else if s = "NJ" then [("latitude", "1"), ("extra", "2")]
  else []

/-- A concrete regionalisation request. -/
def reqW : Inputs String :=
  [("ts", [⟨"tsd", "f1.nc"⟩, ⟨"tsd2", "f2.nc"⟩]),
   ("model_name", [⟨"GR4JCN", "mfile"⟩]),
   ("method", [⟨"SP_IDW", "mefile"⟩]),
   ("ndonors", [⟨"5", "nfile"⟩]),
   ("min_NSE", [⟨"0.6", "nsfile"⟩]),
   ("properties", [⟨"PJ", "pfile"⟩]),
   ("nc_spec", [⟨"NJ", "sfile"⟩]),
   ("latitude", [⟨"45.0", "lfile"⟩, ⟨"46.0", "lfile2"⟩])]

/-- What `parseRegionRequest` yields on `reqW`. -/
def pW : ParsedRequest String :=
  { ts := ["f1.nc", "f2.nc"], model_name := "GR4JCN",
    method := "SP_IDW", ndonors := "5", min_NSE := "0.6",
    propertiesRaw := "PJ", ncSpec := ["NJ"],
    rest := [("latitude", [⟨"45.0", "lfile"⟩, ⟨"46.0", "lfile2"⟩])] }

/-- What `buildKwds jsonW pW` yields: the `nc_spec` value of `latitude`
overridden by the first occurrence of the remaining `latitude` input. -/
def kwdsW : List (String × String) :=
  [("latitude", "45.0"), ("extra", "2")]

/-- An oracle on which every library call succeeds. -/
def libOkW : RavenLib String (List String) String String :=
  { read_gauged_params := fun _ => .ok ("NASH", "PARAMS"),
    read_gauged_properties := fun ks => .ok ks,
    regionalize := fun _ => .ok ("QSIM", "ENSEMBLE"),
    format_exc := fun e => "TB:" ++ e }

/-- An oracle on which only `regionalize` raises. -/
def libRegErrW : RavenLib String (List String) String String :=
  { read_gauged_params := fun _ => .ok ("NASH", "PARAMS"),
    read_gauged_properties := fun ks => .ok ks,
    regionalize := fun _ => .error "rex",
    format_exc := fun e => "TB:" ++ e }

/-- An oracle on which `read_gauged_params` raises. -/
def libParamsErrW : RavenLib String (List String) String String :=
  { read_gauged_params := fun _ => .error "boom",
    read_gauged_properties := fun ks => .ok ks,
    regionalize := fun _ => .ok ("QSIM", "ENSEMBLE"),
    format_exc := fun e => "TB:" ++ e }

/-- A 301-character traceback: 300 `a`s and a `@` — longer than the
300-character default limit of the framework and containing a character
outside the framework's default allowed set. -/
def msgLong : String := String.mk (List.replicate 300 'a' ++ ['@'])

/-- An oracle on which `regionalize` raises with traceback `msgLong`. -/
def libLongErrW : RavenLib String (List String) String String :=
  { read_gauged_params := fun _ => .ok ("NASH", "PARAMS"),
    read_gauged_properties := fun ks => .ok ks,
    regionalize := fun _ => .error "x",
    format_exc := fun _ => msgLong }

/-- A concrete plotting oracle. -/
def glibW : GraphLib String String :=
  { hindcast := fun s v q qv => "HIND:" ++ s ++ ":" ++ v ++ ":" ++ q ++ ":" ++ qv,
    forecast := fun s v => "FCST:" ++ s ++ ":" ++ v }

/-- A graph request with a `qobs` observation input. -/
def greqHindW : Inputs String :=
  [("fcst", [⟨"fd", "sim.nc"⟩]),
   ("fcst_var", [⟨"q_sim", "fv"⟩]),
   ("qobs", [⟨"od", "obs.nc"⟩]),
   ("qobs_var", [⟨"q_obs", "ov"⟩])]

/-- A graph request without `qobs` (`qobs_var` is still present: it has
a default, so pywps always supplies it). -/
def greqFcstW : Inputs String :=
  [("fcst", [⟨"fd", "sim.nc"⟩]),
   ("fcst_var", [⟨"q_sim", "fv"⟩]),
   ("qobs_var", [⟨"q_obs", "ov"⟩])]

/-- The handlers read no module-level state: the embedding of an
invocation of `RegionalisationProcess._handler` as Python runs it — a
map from the module state (the interpreter's globals) and the request to
the result and the module state after the call.  The handler's body never
assigns a module-level name (its only module-level interaction, the
write-only `LOGGER.exception` sink, is the `log` field of the result). -/
def regionInvocation {M V Props Sim E : Type} (m : M)
    (lib : RavenLib V Props Sim E) (jsonLoads : V → List (String × V))
    (workdir : String) (inputs : Inputs V) :
    RunResult V Props Sim E × M :=
  (regionHandler lib jsonLoads workdir inputs, m)

/-- The same for `GraphFcstUncertaintyProcess._handler`. -/
def graphInvocation {M V Fig : Type} (m : M) (lib : GraphLib V Fig)
    (workdir : String) (inputs : Inputs V) : GraphResult V Fig × M :=
  (graphHandler lib workdir inputs, m)

/-! ### Supporting lemmas -/

theorem dictGetVal_dictSet_self {α : Type} (d : List (String × α))
    (k : String) (v : α) : dictGetVal (dictSet d k v) k = some v := by
  induction d with
  | nil => simp [dictSet, dictGetVal, List.find?]
  | cons hd tl ih =>
    by_cases hk : hd.1 == k
    · simp [dictSet, dictGetVal, List.find?, hk]
    · simp only [dictSet, hk, if_false]
      simpa [dictGetVal, List.find?, hk] using ih

theorem dictGetVal_dictSet_ne {α : Type} (d : List (String × α))
    (k k' : String) (v : α) (hne : k ≠ k') :
    dictGetVal (dictSet d k' v) k = dictGetVal d k := by
  induction d with
  | nil =>
    have : (k' == k) = false := by
      simp only [beq_eq_false_iff_ne, ne_eq]
      exact fun hc => hne hc.symm
    simp [dictSet, dictGetVal, List.find?, this]
  | cons hd tl ih =>
    by_cases hk : hd.1 == k'
    · have hd1 : (hd.1 == k) = false := by
        have hq := beq_iff_eq.mp hk
        simp only [beq_eq_false_iff_ne, ne_eq, hq]
        exact fun hc => hne hc.symm
      have hk2 : (k' == k) = false := by
        simp only [beq_eq_false_iff_ne, ne_eq]
        exact fun hc => hne hc.symm
      simp [dictSet, dictGetVal, List.find?, hk, hd1, hk2]
    · simp only [dictSet, hk, if_false]
      by_cases hk2 : hd.1 == k
      · simp [dictGetVal, List.find?, hk2]
      · simp only [dictGetVal, List.find?, hk2] at ih ⊢
        exact ih

/-- On a dict with pairwise-distinct keys, looking a member's key up
finds that member. -/
theorem find?_key_of_mem {V : Type} (d : List (String × V))
    (h : (d.map Prod.fst).Nodup) (p : String × V) (hp : p ∈ d) :
    d.find? (fun q => q.1 == p.1) = some p := by
  induction d with
  | nil => simp at hp
  | cons hd tl ih =>
    simp only [List.map_cons, List.nodup_cons] at h
    obtain ⟨hk, htl⟩ := h
    rcases List.mem_cons.mp hp with heq | hmem
    · rw [heq]
      simp [List.find?]
    · have hne : (hd.1 == p.1) = false := by
        simp only [beq_eq_false_iff_ne, ne_eq]
        intro hc
        exact hk (hc ▸ List.mem_map_of_mem Prod.fst hmem)
      simp only [List.find?, hne]
      exact ih htl hmem

/-- On a dict (pairwise-distinct keys), the comprehension
`{key: properties[key] for key in properties}` rebuilds the dict
unchanged, key for key and value for value. -/
theorem ungaugedPropsOf_eq_self {V : Type} (d : List (String × V))
    (h : (d.map Prod.fst).Nodup) : ungaugedPropsOf d = d := by
  unfold ungaugedPropsOf
  have hmap : ∀ p ∈ d,
      (p.1, ((d.find? (fun q => q.1 == p.1)).map (fun q => q.2)).getD p.2)
        = id p := by
    intro p hp
    rw [find?_key_of_mem d h p hp]
    simp
  rw [List.map_congr_left hmap, List.map_id]

/-- Folding `setStep` from a dead accumulator stays dead. -/
theorem foldl_setStep_none {V : Type}
    (rest : List (String × List (InputVal V))) :
    rest.foldl setStep (none : Option (List (String × V))) = none := by
  induction rest with
  | nil => rfl
  | cons hd tl ih =>
    simp only [List.foldl_cons, setStep, Option.none_bind]
    exact ih

/-- A key not among the remaining inputs is untouched by the
`kwds[key] = request.inputs[key][0].data` loop. -/
theorem setFromRemaining_notMem {V : Type}
    (rest : List (String × List (InputVal V))) (k : String) :
    ∀ (d m : List (String × V)), k ∉ rest.map Prod.fst →
      setFromRemaining rest d = some m →
      dictGetVal m k = dictGetVal d k := by
  induction rest with
  | nil =>
    intro d m _ hm
    simp only [setFromRemaining, List.foldl_nil, Option.some_inj] at hm
    rw [hm]
  | cons hd tl ih =>
    intro d m hk hm
    simp only [List.map_cons, List.mem_cons, not_or] at hk
    obtain ⟨hk1, hk2⟩ := hk
    simp only [setFromRemaining, List.foldl_cons, setStep,
      Option.bind_some] at hm
    cases hv : hd.2 with
    | nil =>
      rw [hv] at hm
      simp only [Option.some_bind] at hm
      rw [foldl_setStep_none] at hm
      exact absurd hm (by simp)
    | cons v vs =>
      rw [hv] at hm
      simp only at hm
      have := ih (dictSet d hd.1 v.data) m hk2 hm
      rw [this, dictGetVal_dictSet_ne d k hd.1 v.data hk1]

/-- When the remaining-input keys are pairwise distinct (they are keys
of a Python dict), the loop leaves each remaining key bound to the data
of its first occurrence, whatever was merged from `nc_spec` before. -/
theorem setFromRemaining_first {V : Type}
    (rest : List (String × List (InputVal V))) (k : String)
    (v : InputVal V) (vs : List (InputVal V)) :
    ∀ (d m : List (String × V)), (rest.map Prod.fst).Nodup →
      (k, v :: vs) ∈ rest → setFromRemaining rest d = some m →
      dictGetVal m k = some v.data := by
  induction rest with
  | nil => intro d m _ hmem _; simp at hmem
  | cons hd tl ih =>
    intro d m hnd hmem hm
    simp only [List.map_cons, List.nodup_cons] at hnd
    obtain ⟨hnd1, hnd2⟩ := hnd
    simp only [setFromRemaining, List.foldl_cons, setStep,
      Option.bind_some] at hm
    rcases List.mem_cons.mp hmem with heq | htl
    · rw [← heq] at hm hnd1
      simp only at hm
      have := setFromRemaining_notMem tl k (dictSet d k v.data) m hnd1 hm
      rw [this, dictGetVal_dictSet_self]
    · cases hv : hd.2 with
      | nil =>
        rw [hv] at hm
        simp only [Option.some_bind] at hm
        rw [foldl_setStep_none] at hm
        exact absurd hm (by simp)
      | cons w ws =>
        rw [hv] at hm
        simp only at hm
        exact ih (dictSet d hd.1 w.data) m hnd2 htl hm

/-- A list without Python whitespace splits into the single word it is
(or no word at all when empty). -/
theorem pySplitAux_no_ws (l : List Char) :
    ∀ acc : List Char, (∀ c ∈ l, isPyWhitespace c = false) →
      pySplitAux l acc =
        if acc.isEmpty && l.isEmpty then [] else [acc.reverse ++ l] := by
  induction l with
  | nil =>
    intro acc _
    cases acc <;> simp [pySplitAux]
  | cons c rest ih =>
    intro acc h
    have hc : isPyWhitespace c = false := h c (List.mem_cons_self c rest)
    have hrest : ∀ x ∈ rest, isPyWhitespace x = false :=
      fun x hx => h x (List.mem_cons_of_mem c hx)
    simp only [pySplitAux, hc, Bool.false_eq_true, if_false]
    rw [ih (c :: acc) hrest]
    simp [List.reverse_cons]

/-- A nonempty all-printable, whitespace-free message formatted with
`max_length` equal to its own length passes through `formatMessage`
unchanged: nothing is filtered out, nothing is collapsed, and the
truncation branch cannot fire. -/
theorem formatMessage_printable_id (l : List Char) (hne : l ≠ [])
    (hpr : ∀ c ∈ l, isPythonPrintable c = true ∧
      isPyWhitespace c = false) (hlen : 3 ≤ l.length) :
    formatMessage l 3 l.length isPythonPrintable = some l := by
  unfold formatMessage
  have hfil : l.filter (fun c => c.isAlphanum || isPythonPrintable c ||
      isPyWhitespace c) = l := by
    apply List.filter_eq_self.mpr
    intro c hc
    simp [(hpr c hc).1]
  rw [hfil]
  unfold pySplit
  rw [pySplitAux_no_ws l [] (fun c hc => (hpr c hc).2)]
  have hle : l.isEmpty = false := by
    cases l with
    | nil => exact absurd rfl hne
    | cons a b => rfl
  simp only [List.isEmpty_nil, hle, Bool.and_false, Bool.false_eq_true,
    if_false, List.reverse_nil, List.nil_append]
  simp only [joinWithSpace, truncAndCheck, lt_irrefl, if_false]
  have : ¬ l.length < 3 := by omega
  simp [this]

/-- Shape of a run in which `read_gauged_params` raises: the exception
leaves the handler uncaught, nothing is logged, nothing is written. -/
theorem regionHandler_params_error {V Props Sim E : Type}
    (lib : RavenLib V Props Sim E) (jsonLoads : V → List (String × V))
    (workdir : String) (inputs : Inputs V) (p : ParsedRequest V)
    (kwds : List (String × V)) (e : E)
    (hp : parseRegionRequest inputs = some p)
    (hk : buildKwds jsonLoads p = some kwds)
    (hgp : lib.read_gauged_params p.model_name = .error e) :
    regionHandler lib jsonLoads workdir inputs =
      { outcome := .uncaught e,
        statusUpdates := [("Inputs are read", 1)],
        hydrograph := none, ensemble := none, files := [], log := [],
        trace := [.readGaugedParams p.model_name] } := by
  simp only [regionHandler, hp, runParsed, hk, hgp]

/-- Shape of a run in which `read_gauged_properties` raises. -/
theorem regionHandler_props_error {V Props Sim E : Type}
    (lib : RavenLib V Props Sim E) (jsonLoads : V → List (String × V))
    (workdir : String) (inputs : Inputs V) (p : ParsedRequest V)
    (kwds : List (String × V)) (nash params : V) (e : E)
    (hp : parseRegionRequest inputs = some p)
    (hk : buildKwds jsonLoads p = some kwds)
    (hgp : lib.read_gauged_params p.model_name = .ok (nash, params))
    (hpr : lib.read_gauged_properties
      ((jsonLoads p.propertiesRaw).map (fun q => q.1)) = .error e) :
    regionHandler lib jsonLoads workdir inputs =
      { outcome := .uncaught e,
        statusUpdates := [("Inputs are read", 1),
          ("Gauged params are read", 2)],
        hydrograph := none, ensemble := none, files := [], log := [],
        trace := [.readGaugedParams p.model_name,
          .readGaugedProperties
            ((jsonLoads p.propertiesRaw).map (fun q => q.1))] } := by
  simp only [regionHandler, hp, runParsed, hk, hgp, hpr]
  rfl

/-- Shape of a run in which `regionalize` raises: the exception is
logged, converted to a `ProcessError` carrying the formatted traceback
with `max_length` its own length, no file is written, no output set, and
`regionalize` was consulted exactly once. -/
theorem regionHandler_regionalize_error {V Props Sim E : Type}
    (lib : RavenLib V Props Sim E) (jsonLoads : V → List (String × V))
    (workdir : String) (inputs : Inputs V) (p : ParsedRequest V)
    (kwds : List (String × V)) (nash params : V) (props : Props) (e : E)
    (hp : parseRegionRequest inputs = some p)
    (hk : buildKwds jsonLoads p = some kwds)
    (hgp : lib.read_gauged_params p.model_name = .ok (nash, params))
    (hpr : lib.read_gauged_properties
      ((jsonLoads p.propertiesRaw).map (fun q => q.1)) = .ok props)
    (hre : lib.regionalize (regionArgsOf jsonLoads p nash params props
      kwds) = .error e) :
    regionHandler lib jsonLoads workdir inputs =
      { outcome := .processError (lib.format_exc e)
          (lib.format_exc e).length,
        statusUpdates := [("Inputs are read", 1),
          ("Gauged params are read", 2),
          ("Gauged properties are read", 3)],
        hydrograph := none, ensemble := none, files := [], log := [e],
        trace := [.readGaugedParams p.model_name,
          .readGaugedProperties
            ((jsonLoads p.propertiesRaw).map (fun q => q.1)),
          .regionalizeCall (regionArgsOf jsonLoads p nash params props
            kwds)] } := by
  simp only [regionHandler, hp, runParsed, hk, hgp, hpr, hre]
  rfl

/-- Shape of a successful run: `qsim.nc` and `ensemble.nc` are written
and become the two outputs. -/
theorem regionHandler_ok {V Props Sim E : Type}
    (lib : RavenLib V Props Sim E) (jsonLoads : V → List (String × V))
    (workdir : String) (inputs : Inputs V) (p : ParsedRequest V)
    (kwds : List (String × V)) (nash params : V) (props : Props)
    (qsim ens : Sim)
    (hp : parseRegionRequest inputs = some p)
    (hk : buildKwds jsonLoads p = some kwds)
    (hgp : lib.read_gauged_params p.model_name = .ok (nash, params))
    (hpr : lib.read_gauged_properties
      ((jsonLoads p.propertiesRaw).map (fun q => q.1)) = .ok props)
    (hre : lib.regionalize (regionArgsOf jsonLoads p nash params props
      kwds) = .ok (qsim, ens)) :
    regionHandler lib jsonLoads workdir inputs =
      { outcome := .ok,
        statusUpdates := [("Inputs are read", 1),
          ("Gauged params are read", 2),
          ("Gauged properties are read", 3),
          ("Computed regionalization", 99)],
        hydrograph := some (workdir ++ "/qsim.nc"),
        ensemble := some (workdir ++ "/ensemble.nc"),
        files := [(workdir ++ "/qsim.nc", qsim),
          (workdir ++ "/ensemble.nc", ens)],
        log := [],
        trace := [.readGaugedParams p.model_name,
          .readGaugedProperties
            ((jsonLoads p.propertiesRaw).map (fun q => q.1)),
          .regionalizeCall (regionArgsOf jsonLoads p nash params props
            kwds)] } := by
  simp only [regionHandler, hp, runParsed, hk, hgp, hpr, hre]
  rfl

/-- Helper: a key that `dictGetVal` finds is in the dict. -/
theorem dictHasKey_of_getVal {α : Type} (d : List (String × α))
    (k : String) (x : α) (h : dictGetVal d k = some x) :
    dictHasKey d k = true := by
  unfold dictGetVal at h
  unfold dictHasKey
  rw [List.any_eq_true]
  cases hf : d.find? (fun p => p.1 == k) with
  | none => rw [hf] at h; simp at h
  | some y =>
    have hp := List.find?_some (p := fun q : String × α => q.1 == k) hf
    exact ⟨y, List.mem_of_find?_eq_some hf, hp⟩

/-! ### The claims -/

/-- C4: the regionalisation endpoint's declared input schema: `method`
accepts exactly MLR, SP, PS, SP_IDW, PS_IDW, SP_IDW_RA, PS_IDW_RA and
defaults to SP_IDW; `ndonors` is an integer defaulting to 5; `min_NSE`
is a float defaulting to 0.6; `properties` is required in JSON format
with `min_occurs = max_occurs = 1`, while the first three are optional
(`min_occurs` 0). -/
theorem C4_regionalisation_schema :
    region_method_input.allowed_values =
      some ["MLR", "SP", "PS", "SP_IDW", "PS_IDW", "SP_IDW_RA",
        "PS_IDW_RA"] ∧
    region_method_input.defaultVal = some (.s "SP_IDW") ∧
    region_method_input.min_occurs = 0 ∧
    region_ndonors_input.data_type = "integer" ∧
    region_ndonors_input.defaultVal = some (.i 5) ∧
    region_ndonors_input.min_occurs = 0 ∧
    region_min_NSE_input.data_type = "float" ∧
    region_min_NSE_input.defaultVal = some (.f (6 / 10)) ∧
    region_min_NSE_input.min_occurs = 0 ∧
    region_properties_input.min_occurs = 1 ∧
    region_properties_input.max_occurs = 1 ∧
    region_properties_input.supported_formats = ["application/json"] :=
  ⟨rfl, rfl, rfl, rfl, rfl, rfl, rfl, rfl, rfl, rfl, rfl, rfl⟩

/-- C6: the HBV-EC `params` input's default value is the comma-separated
rendering of the 21 default parameter values of `HBVEC.Params`
(`par_x01 = 0.05984519` through `par_x21 = 1.024278`, joined in field
order by `", "`), and its abstract lists the parameter field names in
the same order. -/
theorem C6_hbvec_params_default (maxParallel : Nat) :
    (hbvec_params_input maxParallel).defaultVal =
      some (.s ("0.05984519, 4.072232, 2.001574, 0.03473693, " ++
        "0.09985144, 0.506052, 3.438486, 38.32455, 0.4606565, " ++
        "0.06303738, 2.277781, 4.873686, 0.5718813, 0.04505643, " ++
        "0.877607, 18.94145, 2.036937, 0.4452843, 0.6771759, " ++
        "1.141608, 1.024278")) ∧
    hbvec_params_abstract =
      "Parameters: par_x01, par_x02, par_x03, par_x04, par_x05, " ++
      "par_x06, par_x07, par_x08, par_x09, par_x10, par_x11, " ++
      "par_x12, par_x13, par_x14, par_x15, par_x16, par_x17, " ++
      "par_x18, par_x19, par_x20, par_x21" :=
  ⟨rfl, rfl⟩

/-- C9: when `regionalize` raises, the handler terminates with an error
(the `ProcessError` carrying the formatted traceback) before writing
any output file: no file — neither `qsim.nc` nor `ensemble.nc` — is
written, and neither the `hydrograph` nor the `ensemble` response
output is set. -/
theorem C9_error_atomicity {V Props Sim E : Type}
    (lib : RavenLib V Props Sim E) (jsonLoads : V → List (String × V))
    (workdir : String) (inputs : Inputs V) (p : ParsedRequest V)
    (kwds : List (String × V)) (nash params : V) (props : Props) (e : E)
    (hp : parseRegionRequest inputs = some p)
    (hk : buildKwds jsonLoads p = some kwds)
    (hgp : lib.read_gauged_params p.model_name = .ok (nash, params))
    (hpr : lib.read_gauged_properties
      ((jsonLoads p.propertiesRaw).map (fun q => q.1)) = .ok props)
    (hre : lib.regionalize (regionArgsOf jsonLoads p nash params props
      kwds) = .error e) :
    (regionHandler lib jsonLoads workdir inputs).files = [] ∧
    (regionHandler lib jsonLoads workdir inputs).hydrograph = none ∧
    (regionHandler lib jsonLoads workdir inputs).ensemble = none ∧
    (regionHandler lib jsonLoads workdir inputs).outcome =
      .processError (lib.format_exc e) (lib.format_exc e).length := by
  rw [regionHandler_regionalize_error lib jsonLoads workdir inputs p kwds
    nash params props e hp hk hgp hpr hre]
  exact ⟨rfl, rfl, rfl, rfl⟩

/-- Witness for C9 at the concrete request `reqW` and the oracle whose
`regionalize` raises `"rex"`. -/
theorem C9_error_atomicity_witness :
    (regionHandler libRegErrW jsonW "wd" reqW).files = [] ∧
    (regionHandler libRegErrW jsonW "wd" reqW).hydrograph = none ∧
    (regionHandler libRegErrW jsonW "wd" reqW).ensemble = none ∧
    (regionHandler libRegErrW jsonW "wd" reqW).outcome =
      .processError "TB:rex" ("TB:rex".length) :=
  C9_error_atomicity libRegErrW jsonW "wd" reqW pW kwdsW "NASH" "PARAMS"
    ["area", "latitude"] "rex" (by decide) (by decide) rfl rfl rfl

/-- C10: for every input remaining after `ts`, `model_name`, `method`,
`ndonors`, `min_NSE`, `properties` and `nc_spec` are consumed, only the
first occurrence's value is forwarded to `regionalize` inside `kwds`
(additional occurrences `vs` do not appear, whatever they are), and a
key appearing both in the merged `nc_spec` dicts and among the
remaining inputs ends up bound to the remaining input's value (the
statement holds for every `nc_spec` content, so in particular when the
key collides). -/
theorem C10_kwds_first_occurrence {V Props Sim E : Type}
    (lib : RavenLib V Props Sim E) (jsonLoads : V → List (String × V))
    (workdir : String) (inputs : Inputs V) (p : ParsedRequest V)
    (kwds : List (String × V)) (k : String) (v : InputVal V)
    (vs : List (InputVal V)) (nash params : V) (props : Props)
    (hp : parseRegionRequest inputs = some p)
    (hk : buildKwds jsonLoads p = some kwds)
    (hnd : (p.rest.map Prod.fst).Nodup)
    (hmem : (k, v :: vs) ∈ p.rest)
    (hgp : lib.read_gauged_params p.model_name = .ok (nash, params))
    (hpr : lib.read_gauged_properties
      ((jsonLoads p.propertiesRaw).map (fun q => q.1)) = .ok props) :
    regionalizeCallsOf (regionHandler lib jsonLoads workdir inputs).trace
      = [regionArgsOf jsonLoads p nash params props kwds] ∧
    dictGetVal kwds k = some v.data := by
  constructor
  · cases hre : lib.regionalize (regionArgsOf jsonLoads p nash params
        props kwds) with
    | error e =>
      rw [regionHandler_regionalize_error lib jsonLoads workdir inputs p
        kwds nash params props e hp hk hgp hpr hre]
      simp [regionalizeCallsOf]
    | ok r =>
      obtain ⟨qsim, ens⟩ := r
      rw [regionHandler_ok lib jsonLoads workdir inputs p kwds nash
        params props qsim ens hp hk hgp hpr hre]
      simp [regionalizeCallsOf]
  · unfold buildKwds at hk
    exact setFromRemaining_first p.rest k v vs _ kwds hnd hmem hk

/-- Witness for C10: in `reqW` the remaining input `latitude` has two
occurrences `45.0` and `46.0` and also appears in the `nc_spec` dict
(there with value `1`); the forwarded `kwds` binds it to `45.0`. -/
theorem C10_kwds_witness :
    regionalizeCallsOf (regionHandler libOkW jsonW "dir" reqW).trace =
      [regionArgsOf jsonW pW "NASH" "PARAMS" ["area", "latitude"]
        kwdsW] ∧
    dictGetVal kwdsW "latitude" = some "45.0" :=
  C10_kwds_first_occurrence libOkW jsonW "dir" reqW pW kwdsW "latitude"
    ⟨"45.0", "lfile"⟩ [⟨"46.0", "lfile2"⟩] "NASH" "PARAMS"
    ["area", "latitude"] (by decide) (by decide) (by decide) (by decide)
    rfl rfl

/-- C7: the handlers are stateless between invocations — an invocation
is a pure map from (module state, request, library oracle) to (result,
module state): two invocations with equal request inputs and equal
library behaviour produce equal results, and the module state after an
invocation is the state before it, for both the regionalisation and the
graph handler. -/
theorem C7_stateless_handlers {M V Props Sim E Fig : Type} (m₁ m₂ : M)
    (lib lib' : RavenLib V Props Sim E)
    (jsonLoads jsonLoads' : V → List (String × V))
    (workdir workdir' : String) (inputs inputs' : Inputs V)
    (glib glib' : GraphLib V Fig) (ginputs ginputs' : Inputs V)
    (hlib : lib = lib') (hj : jsonLoads = jsonLoads')
    (hw : workdir = workdir') (hi : inputs = inputs')
    (hgl : glib = glib') (hgi : ginputs = ginputs') :
    (regionInvocation m₁ lib jsonLoads workdir inputs).1 =
      (regionInvocation m₂ lib' jsonLoads' workdir' inputs').1 ∧
    (regionInvocation m₁ lib jsonLoads workdir inputs).2 = m₁ ∧
    (graphInvocation m₁ glib workdir ginputs).1 =
      (graphInvocation m₂ glib' workdir' ginputs').1 ∧
    (graphInvocation m₁ glib workdir ginputs).2 = m₁ := by
  subst hlib hj hw hi hgl hgi
  exact ⟨rfl, rfl, rfl, rfl⟩

/-- Witness for C7 at two different module states (0 and 1). -/
theorem C7_stateless_witness :
    (regionInvocation (0 : Nat) libOkW jsonW "wd" reqW).1 =
      (regionInvocation (1 : Nat) libOkW jsonW "wd" reqW).1 ∧
    (regionInvocation (0 : Nat) libOkW jsonW "wd" reqW).2 = 0 ∧
    (graphInvocation (0 : Nat) glibW "wd" greqHindW).1 =
      (graphInvocation (1 : Nat) glibW "wd" greqHindW).1 ∧
    (graphInvocation (0 : Nat) glibW "wd" greqHindW).2 = 0 :=
  C7_stateless_handlers 0 1 libOkW libOkW jsonW jsonW "wd" "wd" reqW
    reqW glibW glibW greqHindW greqHindW rfl rfl rfl rfl rfl rfl

/-- C1 (amended): only exceptions raised by `regionalize` are caught,
logged and converted into a `ProcessError` carrying the formatted
traceback, with no retry (`regionalize` appears exactly once in the
call trace); exceptions raised by `read_gauged_params` or
`read_gauged_properties` propagate out of the handler uncaught and
unlogged. -/
theorem C1_exception_scope_amended {V Props Sim E : Type}
    (lib : RavenLib V Props Sim E) (jsonLoads : V → List (String × V))
    (workdir : String) (inputs : Inputs V) (p : ParsedRequest V)
    (kwds : List (String × V))
    (hp : parseRegionRequest inputs = some p)
    (hk : buildKwds jsonLoads p = some kwds) :
    (∀ e, lib.read_gauged_params p.model_name = .error e →
      (regionHandler lib jsonLoads workdir inputs).outcome =
        .uncaught e ∧
      (regionHandler lib jsonLoads workdir inputs).log = []) ∧
    (∀ nash params e,
      lib.read_gauged_params p.model_name = .ok (nash, params) →
      lib.read_gauged_properties
        ((jsonLoads p.propertiesRaw).map (fun q => q.1)) = .error e →
      (regionHandler lib jsonLoads workdir inputs).outcome =
        .uncaught e ∧
      (regionHandler lib jsonLoads workdir inputs).log = []) ∧
    (∀ nash params props e,
      lib.read_gauged_params p.model_name = .ok (nash, params) →
      lib.read_gauged_properties
        ((jsonLoads p.propertiesRaw).map (fun q => q.1)) = .ok props →
      lib.regionalize (regionArgsOf jsonLoads p nash params props kwds)
        = .error e →
      (regionHandler lib jsonLoads workdir inputs).outcome =
        .processError (lib.format_exc e) (lib.format_exc e).length ∧
      (regionHandler lib jsonLoads workdir inputs).log = [e] ∧
      regionalizeCallsOf
          (regionHandler lib jsonLoads workdir inputs).trace =
        [regionArgsOf jsonLoads p nash params props kwds]) := by
  refine ⟨?_, ?_, ?_⟩
  · intro e hgp
    rw [regionHandler_params_error lib jsonLoads workdir inputs p kwds e
      hp hk hgp]
    exact ⟨rfl, rfl⟩
  · intro nash params e hgp hpr
    rw [regionHandler_props_error lib jsonLoads workdir inputs p kwds
      nash params e hp hk hgp hpr]
    exact ⟨rfl, rfl⟩
  · intro nash params props e hgp hpr hre
    rw [regionHandler_regionalize_error lib jsonLoads workdir inputs p
      kwds nash params props e hp hk hgp hpr hre]
    refine ⟨rfl, rfl, ?_⟩
    simp [regionalizeCallsOf]

/-- Counterexample to C1 as stated: on `reqW` with an oracle whose
`read_gauged_params` raises `"boom"`, the exception leaves the handler
uncaught — it is not converted into a `ProcessError` and nothing is
logged. -/
theorem C1_read_params_uncaught :
    (regionHandler libParamsErrW jsonW "wd" reqW).outcome =
      .uncaught "boom" ∧
    (regionHandler libParamsErrW jsonW "wd" reqW).outcome.isProcessError
      = false ∧
    (regionHandler libParamsErrW jsonW "wd" reqW).log = [] := by
  refine ⟨by decide, by decide, by decide⟩

/-- Witness for C1 (amended) at `reqW` with the oracle whose
`regionalize` raises `"rex"`. -/
theorem C1_exception_scope_witness :
    (regionHandler libRegErrW jsonW "wd" reqW).outcome =
      .processError "TB:rex" ("TB:rex".length) ∧
    (regionHandler libRegErrW jsonW "wd" reqW).log = ["rex"] := by
  have h := (C1_exception_scope_amended libRegErrW jsonW "wd" reqW pW
    kwdsW (by decide) (by decide)).2.2 "NASH" "PARAMS"
    ["area", "latitude"] "rex" rfl rfl rfl
  exact ⟨h.1, h.2.1⟩

/-- C2 (amended): when `regionalize` raises, the handler re-raises the
full traceback with `max_length` set to the traceback's own length and
`allowed_chars = string.printable`, so the surfaced message is not
truncated and keeps its printable characters: a traceback of printable,
non-whitespace characters (and length at least pywps's `min_length` 3)
is surfaced verbatim, whatever its length. -/
theorem C2_message_unaltered_amended {V Props Sim E : Type}
    (lib : RavenLib V Props Sim E) (jsonLoads : V → List (String × V))
    (workdir : String) (inputs : Inputs V) (p : ParsedRequest V)
    (kwds : List (String × V)) (nash params : V) (props : Props) (e : E)
    (hp : parseRegionRequest inputs = some p)
    (hk : buildKwds jsonLoads p = some kwds)
    (hgp : lib.read_gauged_params p.model_name = .ok (nash, params))
    (hpr : lib.read_gauged_properties
      ((jsonLoads p.propertiesRaw).map (fun q => q.1)) = .ok props)
    (hre : lib.regionalize (regionArgsOf jsonLoads p nash params props
      kwds) = .error e)
    (hne : (lib.format_exc e).toList ≠ [])
    (hlen : 3 ≤ (lib.format_exc e).toList.length)
    (hch : ∀ c ∈ (lib.format_exc e).toList,
      isPythonPrintable c = true ∧ isPyWhitespace c = false) :
    (regionHandler lib jsonLoads workdir inputs).outcome =
      .processError (lib.format_exc e) (lib.format_exc e).length ∧
    surfacedMessage (lib.format_exc e) (lib.format_exc e).length =
      some (lib.format_exc e).toList := by
  constructor
  · rw [regionHandler_regionalize_error lib jsonLoads workdir inputs p
      kwds nash params props e hp hk hgp hpr hre]
  · unfold surfacedMessage
    exact formatMessage_printable_id (lib.format_exc e).toList hne hch
      hlen

/-- Counterexample to C2 as stated: with a traceback of 301 characters
containing `@`, the surfaced message is the traceback verbatim — its
length exceeds the framework's default 300-character limit and the `@`
(outside the framework's default allowed set) survives: nothing is
truncated or stripped. -/
theorem C2_long_message_intact :
    (regionHandler libLongErrW jsonW "wd" reqW).outcome =
      .processError msgLong 301 ∧
    surfacedMessage msgLong 301 = some msgLong.toList ∧
    300 < msgLong.length ∧
    '@' ∈ msgLong.toList := by
  refine ⟨by decide, ?_, by decide, by decide⟩
  have h301 : msgLong.length = 301 := by decide
  rw [← h301]
  unfold surfacedMessage
  refine formatMessage_printable_id msgLong.toList (by decide) ?_
    (by decide)
  decide

/-- Witness for C2 (amended) at `reqW` with the traceback `TB:rex`. -/
theorem C2_message_witness :
    (regionHandler libRegErrW jsonW "wd" reqW).outcome =
      .processError "TB:rex" ("TB:rex".length) ∧
    surfacedMessage "TB:rex" ("TB:rex".length) = some "TB:rex".toList :=
  C2_message_unaltered_amended libRegErrW jsonW "wd" reqW pW kwdsW
    "NASH" "PARAMS" ["area", "latitude"] "rex" (by decide) (by decide)
    rfl rfl rfl (by decide) (by decide) (by decide)

/-- C3: the handler forwards its inputs to `regionalize` unchanged:
positionally the popped `method` and `model_name`, the `nash`/`params`
pair returned by `read_gauged_params`, the properties returned by
`read_gauged_properties` for exactly the keys of the JSON-decoded
`properties` input, and the decoded properties dict itself (key for
key, value for value) as `ungauged_props`; then `ndonors` as `size`,
`min_NSE`, the list of `ts` file paths, and the keyword dict. -/
theorem C3_regionalize_passthrough {V Props Sim E : Type}
    (lib : RavenLib V Props Sim E) (jsonLoads : V → List (String × V))
    (workdir : String) (inputs : Inputs V) (p : ParsedRequest V)
    (kwds : List (String × V)) (nash params : V) (props : Props)
    (hp : parseRegionRequest inputs = some p)
    (hk : buildKwds jsonLoads p = some kwds)
    (hnd : ((jsonLoads p.propertiesRaw).map Prod.fst).Nodup)
    (hgp : lib.read_gauged_params p.model_name = .ok (nash, params))
    (hpr : lib.read_gauged_properties
      ((jsonLoads p.propertiesRaw).map (fun q => q.1)) = .ok props) :
    regionalizeCallsOf (regionHandler lib jsonLoads workdir inputs).trace
      = [{ method := p.method, model_name := p.model_name, nash := nash,
           params := params, props := props,
           ungauged_props := jsonLoads p.propertiesRaw,
           size := p.ndonors, min_NSE := p.min_NSE, ts := p.ts,
           kwds := kwds }] := by
  have hargs : regionArgsOf jsonLoads p nash params props kwds =
      { method := p.method, model_name := p.model_name, nash := nash,
        params := params, props := props,
        ungauged_props := jsonLoads p.propertiesRaw,
        size := p.ndonors, min_NSE := p.min_NSE, ts := p.ts,
        kwds := kwds } := by
    unfold regionArgsOf
    rw [ungaugedPropsOf_eq_self (jsonLoads p.propertiesRaw) hnd]
  rw [← hargs]
  cases hre : lib.regionalize (regionArgsOf jsonLoads p nash params
      props kwds) with
  | error e =>
    rw [regionHandler_regionalize_error lib jsonLoads workdir inputs p
      kwds nash params props e hp hk hgp hpr hre]
    simp [regionalizeCallsOf]
  | ok r =>
    obtain ⟨qsim, ens⟩ := r
    rw [regionHandler_ok lib jsonLoads workdir inputs p kwds nash params
      props qsim ens hp hk hgp hpr hre]
    simp [regionalizeCallsOf]

/-- Witness for C3 at `reqW` with the all-succeeding oracle. -/
theorem C3_passthrough_witness :
    regionalizeCallsOf (regionHandler libOkW jsonW "wd" reqW).trace =
      [{ method := "SP_IDW", model_name := "GR4JCN", nash := "NASH",
         params := "PARAMS", props := ["area", "latitude"],
         ungauged_props := [("area", "100"), ("latitude", "45")],
         size := "5", min_NSE := "0.6", ts := ["f1.nc", "f2.nc"],
         kwds := [("latitude", "45.0"), ("extra", "2")] }] :=
  C3_regionalize_passthrough libOkW jsonW "wd" reqW pW kwdsW "NASH"
    "PARAMS" ["area", "latitude"] (by decide) (by decide) (by decide)
    rfl rfl

/-- C5: the graph handler calls the hindcast plotting helper (with the
forecast file, `fcst_var`, observation file and `qobs_var`) exactly when
the optional `qobs` input is present, and otherwise the forecast helper
(with the forecast file and `fcst_var`); in both cases it saves the
figure as `forecast_hydrographs.png` in the working directory and sets
that file as the `graph_forecasts` output. -/
theorem C5_graph_dispatch {V Fig : Type} (lib : GraphLib V Fig)
    (workdir : String) (inputs : Inputs V) (f : InputVal V)
    (fr : List (InputVal V)) (v : InputVal V) (vr : List (InputVal V))
    (hf : dictGetVal inputs "fcst" = some (f :: fr))
    (hv : dictGetVal inputs "fcst_var" = some (v :: vr)) :
    (∀ (q : InputVal V) (qr : List (InputVal V)) (qv : InputVal V)
        (qvr : List (InputVal V)),
      dictGetVal inputs "qobs" = some (q :: qr) →
      dictGetVal inputs "qobs_var" = some (qv :: qvr) →
      graphHandler lib workdir inputs =
        { ok := true,
          call := some (.hindcastCall f.file v.data q.file qv.data),
          files := [(workdir ++ "/forecast_hydrographs.png",
            lib.hindcast f.file v.data q.file qv.data)],
          closedFigs := [lib.hindcast f.file v.data q.file qv.data],
          graph_forecasts :=
            some (workdir ++ "/forecast_hydrographs.png") }) ∧
    (dictHasKey inputs "qobs" = false →
      graphHandler lib workdir inputs =
        { ok := true, call := some (.forecastCall f.file v.data),
          files := [(workdir ++ "/forecast_hydrographs.png",
            lib.forecast f.file v.data)],
          closedFigs := [lib.forecast f.file v.data],
          graph_forecasts :=
            some (workdir ++ "/forecast_hydrographs.png") }) := by
  constructor
  · intro q qr qv qvr hq hqv
    have hkq : dictHasKey inputs "qobs" = true :=
      dictHasKey_of_getVal inputs "qobs" (q :: qr) hq
    simp only [graphHandler, hf, hv, hkq, hq, hqv, if_true]
  · intro hkq
    simp only [graphHandler, hf, hv, hkq, Bool.false_eq_true, if_false]

/-- Witness for C5: both branches at concrete requests — with `qobs`
present the hindcast helper runs, without it the forecast helper. -/
theorem C5_graph_dispatch_witness :
    graphHandler glibW "wd" greqHindW =
      { ok := true,
        call := some (.hindcastCall "sim.nc" "q_sim" "obs.nc" "q_obs"),
        files := [("wd/forecast_hydrographs.png",
          "HIND:sim.nc:q_sim:obs.nc:q_obs")],
        closedFigs := ["HIND:sim.nc:q_sim:obs.nc:q_obs"],
        graph_forecasts := some "wd/forecast_hydrographs.png" } ∧
    graphHandler glibW "wd" greqFcstW =
      { ok := true, call := some (.forecastCall "sim.nc" "q_sim"),
        files := [("wd/forecast_hydrographs.png", "FCST:sim.nc:q_sim")],
        closedFigs := ["FCST:sim.nc:q_sim"],
        graph_forecasts := some "wd/forecast_hydrographs.png" } := by
  constructor
  · exact (C5_graph_dispatch glibW "wd" greqHindW ⟨"fd", "sim.nc"⟩ []
      ⟨"q_sim", "fv"⟩ [] (by decide) (by decide)).1 ⟨"od", "obs.nc"⟩ []
      ⟨"q_obs", "ov"⟩ [] (by decide) (by decide)
  · exact (C5_graph_dispatch glibW "wd" greqFcstW ⟨"fd", "sim.nc"⟩ []
      ⟨"q_sim", "fv"⟩ [] (by decide) (by decide)).2 (by decide)

end RavenWPS
